import Mathlib

/-!
Verification of the path-log-to-graph pipeline and the client-side overlay
state machine of `map_paths_v2.py` (IOT_Mapping_archive).

Each Python/JavaScript function the claims touch is shallowly embedded as a
Lean definition translated from the source:

* `normalizeField` / `extractHops` — the hop normalisation of `load_paths`
  (lines 146 and 154-161).
* `hopSeq` / `build_edges_row` / `build_edges` — `build_edges`
  (lines 164-179).
* `lookupCoords` / `resolveEdge` / `add_coords` — `add_coords`
  (lines 182-194): two left merges against the device index followed by
  `dropna` on the four coordinate columns.
* `edgeKey` / `aggregate` / `applyMinCount` — the aggregate branch of
  `make_map` (lines 222-229): `groupby` on the six-tuple key with `.size()`
  and the `count >= max(1, int(min_count))` filter.  The order in which
  groups are listed is irrelevant to every claim, so `groupby`'s key
  sorting is not modelled.
* `findCol` / `load_devices_schema` / `load_labels_schema` /
  `runSchemaChecks` — the required-column checks of `load_devices`
  (lines 56-69) and `load_labels` (lines 88-99) and their position in
  `main` before any output is written.
* `weightForCount` — the JS weight function (lines 481-485), with JS
  numbers modelled as real numbers.
* `offlineIdSet` / `Line` / `mkLine` / `resetLine` / `resetHighlight` /
  `highlightDevice` — the offline-id set (lines 254-257) and the Leaflet
  polyline styling state machine (lines 497-521, 548-579), with opacities
  and weights as rationals.
* `strContains` / `deviceHaystack` / `filterDevices` / `renderResults` —
  the search box logic (lines 600-631), where `strContains` embeds the JS
  `haystack.indexOf(q) !== -1` substring test.

Coordinates are modelled as integers: the pipeline never computes with
them, it only stores, joins and compares them, and after the `dropna`
steps no missing value remains, so any type with decidable equality is a
faithful stand-in for the float values.  String case functions are
embedded character-wise (`strTrim`, `strUpper`, `strLower`) so that every
definition evaluates inside the kernel; on the ASCII device IDs and
queries involved they agree with Python's `strip`/`upper` and JS's
`trim`/`toLowerCase`/`toUpperCase`.
-/

/-- ASCII whitespace as stripped by Python `str.strip` / JS `trim`. -/
def isSpaceChar (c : Char) : Bool :=
  c = ' ' || c = '\t' || c = '\n' || c = '\r' || c.toNat = 11 || c.toNat = 12

/-- Python `str.strip` / JS `String.prototype.trim`, character-level. -/
def strTrim (s : String) : String :=
  ⟨((s.data.dropWhile isSpaceChar).reverse.dropWhile isSpaceChar).reverse⟩

/-- Python `str.upper` / JS `toUpperCase` on ASCII data, character-level. -/
def strUpper (s : String) : String := ⟨s.data.map Char.toUpper⟩

/-- JS `String.prototype.toLowerCase` on ASCII data, character-level. -/
def strLower (s : String) : String := ⟨s.data.map Char.toLower⟩

/-- Substring occurrence: embeds the JS `haystack.indexOf(q) !== -1`.
True iff `q` occurs contiguously in `hay`. -/
def strContains (hay q : String) : Bool :=
  (List.range (hay.data.length + 1)).any
    (fun i => q.data.isPrefixOf (hay.data.drop i))

/-- One field of {node, hop1..hop6} after `load_paths` lines 146 and 156-159:
the field is stripped (line 146), the literal string "nan" is replaced by a
missing value (line 157), empty and literal-"None" values become missing
(line 158, the Python truthiness test `x and x != "None"`), and surviving
values are upper-cased and stripped (line 159). -/
def normalizeField (f : String) : Option String :=
  let x := strTrim f
  if x = "nan" then none
  else if x ≠ "" ∧ x ≠ "None" then some (strTrim (strUpper x))
  else none

/-- The hop sequence extracted from the raw {node, hop1..hop6} fields of one
row: each field is normalised, missing values are dropped, and (as in
`build_edges` line 168, `if s and s != ""`) empty strings are dropped. -/
def extractHops (fields : List String) : List String :=
  ((fields.map normalizeField).filterMap id).filter (fun s => s != "")

/-- One parsed path-log row after `load_paths`: the raw `count` field, the
(possibly failed) timestamp, and the seven normalised hop columns
`node_U, hop1_U .. hop6_U`. -/
structure PathRow where
  count : String
  timestamp : Option Int
  nodeU : Option String
  hop1U : Option String
  hop2U : Option String
  hop3U : Option String
  hop4U : Option String
  hop5U : Option String
  hop6U : Option String
deriving DecidableEq

/-- The seven normalised hop columns of a row, in column order
(`build_edges` line 167). -/
def PathRow.hopFields (r : PathRow) : List (Option String) :=
  [r.nodeU, r.hop1U, r.hop2U, r.hop3U, r.hop4U, r.hop5U, r.hop6U]

/-- The filtered hop sequence of a row (`build_edges` lines 167-168):
missing values and empty strings are removed, order preserved. -/
def hopSeq (r : PathRow) : List String :=
  (r.hopFields.filterMap id).filter (fun s => s != "")

/-- A directed edge emitted by the edge expander (`build_edges`
lines 171-178). -/
structure Edge where
  timestamp : Option Int
  frm : String
  «to» : String
  order : Nat
  count_row : String
deriving DecidableEq

/-- Edges of one row (`build_edges` lines 167-178): nothing for fewer than
two valid hops, else one edge per consecutive hop pair, tagged with its
0-based position and the row's raw `count` field. -/
def build_edges_row (r : PathRow) : List Edge :=
  let seq := hopSeq r
  if seq.length < 2 then []
  else (List.range (seq.length - 1)).map (fun i =>
    { timestamp := r.timestamp
      frm := seq.getD i ""
      «to» := seq.getD (i + 1) ""
      order := i
      count_row := r.count })

/-- The edge expander over the whole parsed path log (`build_edges`
lines 164-179: the per-row records are appended row by row). -/
def build_edges (rows : List PathRow) : List Edge :=
  (rows.map build_edges_row).flatten

/-- One row of the device index built by `load_devices` (lines 71-83):
keyed by the upper-cased, stripped ID, and present only when both
coordinates resolved (`dropna` on line 79), so coordinates are total. -/
structure DeviceEntry where
  idKey : String
  lat : Int
  lon : Int
deriving DecidableEq

/-- Index lookup used by the merges in `add_coords`: the coordinates of the
device whose identity key equals `id`, if any. -/
def lookupCoords (devices : List DeviceEntry) (id : String) : Option (Int × Int) :=
  (devices.find? (fun d => d.idKey == id)).map (fun d => (d.lat, d.lon))

/-- An edge after `add_coords` (lines 182-194): the original edge fields
plus the four endpoint coordinates gained from the device index. -/
structure ResolvedEdge where
  timestamp : Option Int
  frm : String
  «to» : String
  order : Nat
  count_row : String
  lat_from : Int
  lon_from : Int
  lat_to : Int
  lon_to : Int
deriving DecidableEq

/-- Resolution of one edge by the two left merges of `add_coords`
(lines 183-191) followed by the `dropna` of line 193: the edge survives,
carrying the looked-up coordinates, exactly when both endpoint lookups
succeed. -/
def resolveEdge (devices : List DeviceEntry) (e : Edge) : Option ResolvedEdge :=
  match lookupCoords devices e.frm, lookupCoords devices e.«to» with
  | some (laf, lof), some (lat2, lot2) =>
      some { timestamp := e.timestamp, frm := e.frm, «to» := e.«to»
             order := e.order, count_row := e.count_row
             lat_from := laf, lon_from := lof, lat_to := lat2, lon_to := lot2 }
  | _, _ => none

/-- `add_coords` (lines 182-194): resolve every edge, dropping the rows
where any of the four coordinate columns is missing. -/
def add_coords (edges : List Edge) (devices : List DeviceEntry) : List ResolvedEdge :=
  edges.filterMap (resolveEdge devices)

/-- The `groupby` key of the aggregate branch of `make_map` (lines 224-226):
`(frm, to, lat_from, lon_from, lat_to, lon_to)`. -/
structure EdgeKey where
  frm : String
  «to» : String
  lat_from : Int
  lon_from : Int
  lat_to : Int
  lon_to : Int
deriving DecidableEq

/-- The six-tuple grouping key of a resolved edge. -/
def edgeKey (e : ResolvedEdge) : EdgeKey :=
  { frm := e.frm, «to» := e.«to»
    lat_from := e.lat_from, lon_from := e.lon_from
    lat_to := e.lat_to, lon_to := e.lon_to }

/-- An aggregated edge: a grouping key together with the group's size
(the `.size()` column renamed to `count`, lines 227-228). -/
structure AggEdge where
  key : EdgeKey
  count : Nat
deriving DecidableEq

/-- The aggregate branch of `make_map` (lines 223-228): one record per
distinct six-tuple key, whose `count` is the number of resolved edges
carrying that key. -/
def aggregate (l : List ResolvedEdge) : List AggEdge :=
  ((l.map edgeKey).dedup).map
    (fun k => { key := k, count := l.countP (fun e => decide (edgeKey e = k)) })

/-- The minimum-count filter of `make_map` line 229:
`agg[agg["count"] >= max(1, int(min_count))]`. -/
def applyMinCount (min_count : Int) (l : List AggEdge) : List AggEdge :=
  l.filter (fun a => decide (max 1 min_count ≤ (a.count : Int)))

/-- The JS edge-weight function (lines 481-485), over real numbers:
`c = c || 1; if (maxEdgeCount <= 1) return 2;
return 1 + 4 * (Math.log(1 + c) / Math.log(1 + maxEdgeCount))`.
`maxEdgeCount` is the maximum observed count clamped to at least 1
(line 479). -/
noncomputable def weightForCount (maxEdgeCount : ℕ) (c : ℕ) : ℝ :=
  let c2 : ℕ := if c = 0 then 1 else c
  if maxEdgeCount ≤ 1 then 2
  else 1 + 4 * (Real.log (1 + (c2 : ℝ)) / Real.log (1 + (maxEdgeCount : ℝ)))

/-- Case-insensitive, whitespace-tolerant column matching (`col` helper of
`load_devices` lines 57-61 and `load_labels` lines 89-93): the first column
whose stripped, lower-cased name equals the requested logical name. -/
def findCol (cols : List String) (name : String) : Option String :=
  cols.find? (fun c => strLower (strTrim c) == name)

/-- The required-column check of `load_devices` (lines 63-69): fails with
the schema error message when any of ID, Latitude, Longitude is missing. -/
def load_devices_schema (cols : List String) : Except String Unit :=
  if (findCol cols "id").isSome ∧ (findCol cols "latitude").isSome ∧
      (findCol cols "longitude").isSome then
    Except.ok ()
  else
    Except.error "Devices file must include columns: ID, Latitude, Longitude"

/-- The required-column check of `load_labels` (lines 95-99): fails with
the schema error message when any of ID, DeviceName, Location is missing. -/
def load_labels_schema (cols : List String) : Except String Unit :=
  if (findCol cols "id").isSome ∧ (findCol cols "devicename").isSome ∧
      (findCol cols "location").isSome then
    Except.ok ()
  else
    Except.error "Labels file must include columns: ID, DeviceName, Location"

/-- The schema-checking prefix of `main` (lines 716-721): `load_devices`
runs first and its failure aborts the run; when a labels file is supplied,
`load_labels` runs next.  Everything downstream (including writing the
output map) happens only when the result is `ok`. -/
def runSchemaChecks (devCols : List String) (labelCols : Option (List String)) :
    Except String Unit :=
  match load_devices_schema devCols with
  | Except.error e => Except.error e
  | Except.ok _ =>
    match labelCols with
    | none => Except.ok ()
    | some lc => load_labels_schema lc

/-- A device record as serialised for the JS overlay (`make_map`
lines 246-251): after `fillna("")`, every descriptive field is a plain
string. -/
structure JsDevice where
  ID_upper : String
  ID : String
  Latitude : Int
  Longitude : Int
  devType : String
  DeviceName : String
  Location : String
deriving DecidableEq

/-- The search haystack of `filterDevices` (lines 623-625):
`(d.ID + " " + (d.DeviceName || "") + " " + (d.Location || "")).toLowerCase()`. -/
def deviceHaystack (d : JsDevice) : String :=
  strLower (d.ID ++ " " ++ d.DeviceName ++ " " ++ d.Location)

/-- The search filter (`filterDevices`, lines 613-631) restricted to its
value: the matches pushed, in device order, for the trimmed, lower-cased
query; an empty trimmed query yields no matches (the JS early-returns,
clearing the result list). -/
def filterDevices (devices : List JsDevice) (query : String) : List JsDevice :=
  let q := strLower (strTrim query)
  if q = "" then []
  else devices.foldl
    (fun acc d => if strContains (deviceHaystack d) q then acc ++ [d] else acc) []

/-- The rendered result list (`renderResults`, lines 600-611):
`matches.slice(0, 50)` in match order. -/
def renderResults (found : List JsDevice) : List JsDevice :=
  found.take 50

/-- Modelled from the claim's wording, for comparison with the code's
haystack matching: a device matches when its ID, device name, or location
contains the query as a case-insensitive substring. -/
def claimFieldMatch (d : JsDevice) (query : String) : Bool :=
  strContains (strLower d.ID) (strLower query) ||
  strContains (strLower d.DeviceName) (strLower query) ||
  strContains (strLower d.Location) (strLower query)

/-- The offline-id set of `make_map` (lines 254-257): the upper-cased,
stripped `node_id` of every `(name, node_id)` pair. -/
def offlineIdSet (offline_nodes : List (String × String)) : List String :=
  (offline_nodes.map (fun p => strTrim (strUpper p.2))).dedup

/-- One Leaflet polyline as styled by the overlay (lines 503-514): its two
endpoint ids, its offline flag, its base weight, and its current style
(color, opacity, weight).  Opacities and weights are rationals. -/
structure Line where
  fromId : String
  toId : String
  isOfflineEdge : Bool
  baseWeight : ℚ
  color : String
  opacity : ℚ
  weight : ℚ
deriving DecidableEq

/-- The offline test applied to a new polyline (line 501):
`offlineNodeIdsSet.has(e.frm) || offlineNodeIdsSet.has(e.to)`. -/
def lineIsOffline (offlineIds : List String) (e : AggEdge) : Bool :=
  offlineIds.contains e.key.frm || offlineIds.contains e.key.«to»

/-- Creation of a polyline for an aggregated edge (lines 497-514): the
color is the default blue, the opacity is 0 for offline-incident edges and
0.5 otherwise, and the weight `w` is the rendering weight computed for the
edge's count (passed in here, since `Line` styles are rationals while
`weightForCount` is real-valued). -/
def mkLine (offlineIds : List String) (w : ℚ) (e : AggEdge) : Line :=
  { fromId := e.key.frm
    toId := e.key.«to»
    isOfflineEdge := lineIsOffline offlineIds e
    baseWeight := w
    color := "#3388ff"
    opacity := if lineIsOffline offlineIds e then 0 else 1/2
    weight := w }

/-- The per-line work of `resetHighlight` (lines 551-559): default color,
default opacity (0 for offline-incident lines, 0.5 otherwise), base
weight. -/
def resetLine (l : Line) : Line :=
  { l with color := "#3388ff"
           opacity := if l.isOfflineEdge then 0 else 1/2
           weight := l.baseWeight }

/-- The overlay session state: the selection cursor and the styled lines.
`edgesByNode` registers each line under both of its endpoints
(lines 516-519), so "the lines of node X" is exactly the lines with X as
either endpoint; the state keeps the line list and incidence is recomputed
from the endpoint ids. -/
structure OverlayState where
  selectedId : Option String
  lines : List Line
deriving DecidableEq

/-- `resetHighlight` (lines 550-561): restyle every line to its default and
clear the selection cursor. -/
def resetHighlight (s : OverlayState) : OverlayState :=
  { selectedId := none, lines := s.lines.map resetLine }

/-- `highlightDevice` (lines 563-579): clicking the already selected device
resets and deselects; otherwise reset, select, and restyle every line
incident to the device to the highlight style (black, opacity 0.9). -/
def highlightDevice (idUpper : String) (s : OverlayState) : OverlayState :=
  if s.selectedId = some idUpper then resetHighlight s
  else
    let s2 := resetHighlight s
    { selectedId := some idUpper
      lines := s2.lines.map (fun l =>
        if l.fromId == idUpper || l.toId == idUpper then
          { l with color := "#000000", opacity := 9/10 }
        else l) }

/-! ## Helper lemmas -/

theorem countP_eq_one_of_nodup_mem {α : Type} [DecidableEq α] :
    ∀ (l : List α), l.Nodup → ∀ a ∈ l, l.countP (fun x => decide (x = a)) = 1 := by
  intro l hl a ha
  induction l with
  | nil => cases ha
  | cons b t ih =>
    rw [List.countP_cons]
    rcases List.mem_cons.mp ha with rfl | hat
    · have : t.countP (fun x => decide (x = a)) = 0 := by
        rw [List.countP_eq_zero]
        intro x hx
        simp only [decide_eq_true_iff]
        exact fun hxa => (List.nodup_cons.mp hl).1 (hxa ▸ hx)
      simp [this]
    · have hba : b ≠ a := fun hba => (List.nodup_cons.mp hl).1 (hba ▸ hat)
      have := ih (List.nodup_cons.mp hl).2 hat
      simp [this, hba]

theorem findCol_isSome_iff (cols : List String) (name : String) :
    (findCol cols name).isSome ↔ ∃ c ∈ cols, strLower (strTrim c) = name := by
  simp [findCol, List.find?_isSome]

theorem normalizeField_eq_some (f h : String) (hh : normalizeField f = some h) :
    h = strTrim (strUpper (strTrim f)) := by
  rw [normalizeField] at hh
  split_ifs at hh
  all_goals simp_all

theorem extractHops_cons_none {g : String} {t : List String}
    (hg : normalizeField g = none) : extractHops (g :: t) = extractHops t := by
  simp [extractHops, hg]

theorem extractHops_cons_some {g h : String} {t : List String}
    (hg : normalizeField g = some h) :
    extractHops (g :: t) = if h != "" then h :: extractHops t else extractHops t := by
  simp only [extractHops, List.map_cons, List.filterMap_cons, id_eq, hg,
    List.filter_cons]

theorem foldl_push_eq_filter {α : Type} (p : α → Bool) :
    ∀ (l acc : List α),
      l.foldl (fun acc d => if p d then acc ++ [d] else acc) acc = acc ++ l.filter p := by
  intro l
  induction l with
  | nil => simp
  | cons a t ih =>
    intro acc
    by_cases h : p a <;> simp [h, ih, List.filter_cons]

theorem weightForCount_mono (M : ℕ) {b1 b2 : ℕ} (h : b1 ≤ b2) :
    weightForCount M b1 ≤ weightForCount M b2 := by
  by_cases hM : M ≤ 1
  · simp [weightForCount, hM]
  · have hM2 : 2 ≤ M := by omega
    simp only [weightForCount, if_neg hM]
    have haa : (if b1 = 0 then 1 else b1) ≤ (if b2 = 0 then 1 else b2) := by
      split_ifs <;> omega
    have hMpos : 0 < Real.log (1 + (M : ℝ)) := by
      apply Real.log_pos
      have h2 : (2 : ℝ) ≤ (M : ℝ) := by exact_mod_cast hM2
      linarith
    have hlog : Real.log (1 + ((if b1 = 0 then 1 else b1 : ℕ) : ℝ)) ≤
        Real.log (1 + ((if b2 = 0 then 1 else b2 : ℕ) : ℝ)) := by
      apply Real.log_le_log
      · positivity
      · have hc : ((if b1 = 0 then 1 else b1 : ℕ) : ℝ) ≤
            ((if b2 = 0 then 1 else b2 : ℕ) : ℝ) := by exact_mod_cast haa
        linarith
    have hdiv := (div_le_div_iff_of_pos_right hMpos).mpr hlog
    linarith

/-! ## Claims -/

/-- C1: for every path record whose filtered hop sequence has at least two
entries, the edge expander emits exactly `length - 1` directed edges, the
`i`-th running from hop `i` to hop `i+1` and carrying `order = i` and the
record's raw count field; a record with 0 or 1 valid hops emits no edges. -/
theorem C1_edge_expander (r : PathRow) :
    ((hopSeq r).length < 2 → build_edges_row r = []) ∧
    (2 ≤ (hopSeq r).length → (build_edges_row r).length = (hopSeq r).length - 1) ∧
    (∀ i a b, (hopSeq r)[i]? = some a → (hopSeq r)[i + 1]? = some b →
      (build_edges_row r)[i]? = some ⟨r.timestamp, a, b, i, r.count⟩) := by
  refine ⟨fun h => by simp [build_edges_row, h], fun h => ?_, fun i a b ha hb => ?_⟩
  · rw [build_edges_row, if_neg (by omega)]
    simp
  · have hlen : i + 1 < (hopSeq r).length := by
      have := List.getElem?_eq_some_iff.mp hb
      exact this.choose
    rw [build_edges_row, if_neg (by omega)]
    rw [List.getElem?_map, List.getElem?_range (by omega)]
    simp only [Option.map_some']
    have hda : (hopSeq r).getD i "" = a := by
      simp [List.getD_eq_getElem?_getD, ha]
    have hdb : (hopSeq r).getD (i + 1) "" = b := by
      simp [List.getD_eq_getElem?_getD, hb]
    rw [hda, hdb]

/-- C1 witness: the record with hops A, B, C emits two edges, the first
being A→B with order 0 and the record's count field "5". -/
theorem C1_edge_expander_witness :
    (build_edges_row ⟨"5", none, some "A", some "B", some "C", none, none, none,
      none⟩)[0]? = some ⟨none, "A", "B", 0, "5"⟩ ∧
    (build_edges_row ⟨"5", none, some "A", some "B", some "C", none, none, none,
      none⟩).length = 2 :=
  ⟨(C1_edge_expander _).2.2 0 "A" "B" (by decide) (by decide),
   by rw [(C1_edge_expander _).2.1 (by decide)]; decide⟩

/-- C2: aggregation groups resolved edges by the six-tuple key; each output
record's count is its group's size and each input edge's key owns exactly
one output record; the threshold keeps a record iff its count reaches
`max 1 min_count`, so the default minimum of 1 filters nothing; and equal
keys force equal endpoints, so A→B and B→A are never merged. -/
theorem C2_aggregate_by_key (l : List ResolvedEdge) (m : Int) :
    (∀ a ∈ aggregate l, a.count = l.countP (fun e => decide (edgeKey e = a.key))) ∧
    (∀ e ∈ l, (aggregate l).countP (fun a => decide (a.key = edgeKey e)) = 1) ∧
    (∀ a, a ∈ applyMinCount m (aggregate l) ↔
      a ∈ aggregate l ∧ max 1 m ≤ (a.count : Int)) ∧
    (applyMinCount 1 (aggregate l) = aggregate l) ∧
    (∀ e1 e2 : ResolvedEdge, edgeKey e1 = edgeKey e2 →
      e1.frm = e2.frm ∧ e1.«to» = e2.«to») := by
  refine ⟨?_, ?_, ?_, ?_, ?_⟩
  · intro a ha
    simp only [aggregate, List.mem_map] at ha
    obtain ⟨k, _, rfl⟩ := ha
    rfl
  · intro e he
    rw [aggregate, List.countP_map]
    have hmem : edgeKey e ∈ (l.map edgeKey).dedup :=
      List.mem_dedup.mpr (List.mem_map_of_mem _ he)
    have := countP_eq_one_of_nodup_mem _ (List.nodup_dedup _) _ hmem
    convert this using 2
  · intro a
    simp [applyMinCount, List.mem_filter]
  · rw [applyMinCount, List.filter_eq_self]
    intro a ha
    simp only [aggregate, List.mem_map] at ha
    obtain ⟨k, hk, rfl⟩ := ha
    simp only [decide_eq_true_iff]
    obtain ⟨e, he, hek⟩ := List.mem_map.mp (List.mem_dedup.mp hk)
    have hpos : 0 < l.countP (fun e => decide (edgeKey e = k)) :=
      List.countP_pos_iff.mpr ⟨e, he, by simp [hek]⟩
    omega
  · intro e1 e2 h
    exact ⟨congrArg EdgeKey.frm h, congrArg EdgeKey.«to» h⟩

/-- C2 witness: aggregating two A→B edges and one B→A edge gives exactly one
record for the A→B key, and the default minimum of 1 filters nothing. -/
theorem C2_aggregate_by_key_witness :
    (aggregate [⟨none, "A", "B", 0, "5", 1, 2, 3, 4⟩,
        ⟨none, "A", "B", 1, "7", 1, 2, 3, 4⟩,
        ⟨none, "B", "A", 0, "5", 3, 4, 1, 2⟩]).countP
      (fun a => decide (a.key = edgeKey ⟨none, "A", "B", 0, "5", 1, 2, 3, 4⟩)) = 1 ∧
    applyMinCount 1 (aggregate [⟨none, "A", "B", 0, "5", 1, 2, 3, 4⟩,
        ⟨none, "A", "B", 1, "7", 1, 2, 3, 4⟩,
        ⟨none, "B", "A", 0, "5", 3, 4, 1, 2⟩]) =
      aggregate [⟨none, "A", "B", 0, "5", 1, 2, 3, 4⟩,
        ⟨none, "A", "B", 1, "7", 1, 2, 3, 4⟩,
        ⟨none, "B", "A", 0, "5", 3, 4, 1, 2⟩] :=
  ⟨(C2_aggregate_by_key _ 1).2.1 _ (by decide), (C2_aggregate_by_key _ 1).2.2.2.1⟩

/-- C3 counterexample: an offline-incident edge (A offline-flagged, edge
A→B) starts at zero opacity, but selecting device A restyles it to opacity
0.9 — `highlightDevice` applies the highlight style with no offline check,
so offline suppression does not override the highlight. -/
theorem C3_offline_suppression_counterexample :
    (Line.mk "A" "B" true 2 "#3388ff" 0 2).isOfflineEdge = true ∧
    (highlightDevice "A"
        ⟨none, [Line.mk "A" "B" true 2 "#3388ff" 0 2]⟩).lines.map Line.opacity =
      [9/10] ∧
    ((9 : ℚ)/10 ≠ 0) := by
  refine ⟨rfl, ?_, by norm_num⟩
  simp [highlightDevice, resetHighlight, resetLine]

/-- C3 amended: an edge incident to an offline node is rendered at zero
opacity at creation and whenever styles are reset (idle/deselect), and it
stays at zero opacity after a selection it is not incident to; but
selecting a device it is incident to restyles it to opacity 0.9 like any
other incident edge — the highlight styling overrides the offline
suppression, not the reverse. -/
theorem C3_offline_suppression_amended (s : OverlayState) (idUpper : String) :
    (∀ l ∈ (resetHighlight s).lines, l.isOfflineEdge = true → l.opacity = 0) ∧
    (∀ (offlineIds : List String) (w : ℚ) (e : AggEdge),
      (mkLine offlineIds w e).isOfflineEdge = true →
      (mkLine offlineIds w e).opacity = 0) ∧
    (s.selectedId ≠ some idUpper →
      ∀ l ∈ (highlightDevice idUpper s).lines,
        (l.fromId = idUpper ∨ l.toId = idUpper) → l.opacity = 9/10) ∧
    (s.selectedId ≠ some idUpper →
      ∀ l ∈ (highlightDevice idUpper s).lines,
        l.isOfflineEdge = true → l.fromId ≠ idUpper → l.toId ≠ idUpper →
        l.opacity = 0) := by
  refine ⟨?_, ?_, ?_, ?_⟩
  · intro l hl
    obtain ⟨l0, _, rfl⟩ := List.mem_map.mp hl
    intro hoff
    simp only [resetLine] at hoff ⊢
    simp [hoff]
  · intro ids w e hoff
    simp only [mkLine] at hoff ⊢
    rw [if_pos hoff]
  · intro hne l hl hinc
    rw [highlightDevice, if_neg hne] at hl
    obtain ⟨l1, _, rfl⟩ := List.mem_map.mp hl
    by_cases hc : (l1.fromId == idUpper || l1.toId == idUpper) = true
    · simp [hc]
    · rw [if_neg hc] at hinc ⊢
      simp only [Bool.or_eq_true, beq_iff_eq, not_or] at hc
      rcases hinc with h | h
      · exact absurd h hc.1
      · exact absurd h hc.2
  · intro hne l hl hoff hf ht
    rw [highlightDevice, if_neg hne] at hl
    obtain ⟨l1, hl1, rfl⟩ := List.mem_map.mp hl
    by_cases hcc : (l1.fromId == idUpper || l1.toId == idUpper) = true
    · exfalso
      rw [if_pos hcc] at hf ht
      simp only [Bool.or_eq_true, beq_iff_eq] at hcc
      rcases hcc with h | h
      · exact hf h
      · exact ht h
    · rw [if_neg hcc] at hoff ⊢
      obtain ⟨l0, _, rfl⟩ := List.mem_map.mp hl1
      simp only [resetLine] at hoff ⊢
      simp [hoff]

/-- C3 witness: a freshly created offline-incident polyline has zero
opacity, and with nothing selected, selecting device A raises an
A-incident (non-offline) edge to opacity 0.9. -/
theorem C3_offline_suppression_witness :
    (mkLine ["A"] 2 ⟨⟨"A", "B", 1, 2, 3, 4⟩, 3⟩).opacity = 0 ∧
    (Line.mk "A" "Y" false 2 "#000000" (9/10) 2).opacity = 9/10 :=
  ⟨(C3_offline_suppression_amended ⟨none, []⟩ "A").2.1 ["A"] 2 _ (by decide),
   (C3_offline_suppression_amended
      ⟨none, [Line.mk "A" "Y" false 2 "#3388ff" (1/2) 2]⟩ "A").2.2.1
     (by decide) _
     (by simp [highlightDevice, resetHighlight, resetLine])
     (Or.inl rfl)⟩

/-- C4 counterexample: the lower-case literal "none" is not treated as
absent — the code's test compares against the capitalised literal "None"
only, so a "none" field survives normalisation as the hop "NONE" and
enters the hop sequence. -/
theorem C4_hop_normalization_counterexample :
    normalizeField "none" = some "NONE" ∧ normalizeField "none" ≠ none ∧
    extractHops ["A", "none", "B", "", "", "", ""] = ["A", "NONE", "B"] := by
  refine ⟨by decide, by decide, by decide⟩

/-- C4 amended: during hop extraction each of node, hop1..hop6 is stripped
and upper-cased; a field is treated as absent exactly when its stripped
value is the literal "nan", the capitalised literal "None", or empty (the
check precedes upper-casing, so lower-case "none" is kept); and the
relative order of the present hops is preserved (the extracted sequence is
a sublist of the stripped-and-upper-cased field list). -/
theorem C4_hop_normalization_amended (f : String) (fields : List String) :
    (normalizeField f = none ↔
      (strTrim f = "nan" ∨ strTrim f = "None" ∨ strTrim f = "")) ∧
    (∀ h, normalizeField f = some h → h = strTrim (strUpper (strTrim f))) ∧
    List.Sublist (extractHops fields)
      (fields.map (fun g => strTrim (strUpper (strTrim g)))) := by
  refine ⟨?_, fun h hh => normalizeField_eq_some f h hh, ?_⟩
  · rw [normalizeField]
    split_ifs with h1 h2
    · simp [h1]
    · constructor
      · intro h
        cases h
      · rintro (h | h | h) <;> simp_all
    · push_neg at h2
      by_cases he : strTrim f = ""
      · simp [he]
      · simp [h2 he, he, h1]
  · induction fields with
    | nil => simp [extractHops]
    | cons g t ih =>
      rw [List.map_cons]
      cases hg : normalizeField g with
      | none =>
        rw [extractHops_cons_none hg]
        exact ih.cons _
      | some h =>
        rw [extractHops_cons_some hg]
        have h1 := normalizeField_eq_some g h hg
        by_cases hne : (h != "") = true
        · rw [if_pos hne, h1]
          exact ih.cons₂ _
        · rw [if_neg hne]
          exact ih.cons _

/-- C4 witness: a surviving field equals its stripped, upper-cased form; a
"nan" field is absent; and the hops extracted from concrete fields are a
sublist of the stripped-upper-cased field list. -/
theorem C4_hop_normalization_witness :
    "X" = strTrim (strUpper (strTrim " x ")) ∧
    normalizeField "nan" = none ∧
    List.Sublist (extractHops ["A", "", "b"])
      (["A", "", "b"].map (fun g => strTrim (strUpper (strTrim g)))) :=
  ⟨(C4_hop_normalization_amended " x " []).2.1 "X" (by decide),
   (C4_hop_normalization_amended "nan" []).1.mpr (Or.inl (by decide)),
   (C4_hop_normalization_amended "" ["A", "", "b"]).2.2⟩

/-- C5: edge resolution is a round trip with the device index — an edge
whose two endpoint identity keys are both present is always kept and gains
that device's coordinates, and every surviving resolved edge certifies
that both its endpoints are present with exactly the stored coordinates
(so an edge with either endpoint absent is always dropped). -/
theorem C5_resolution_round_trip (edges : List Edge) (dev : List DeviceEntry) :
    (∀ e ∈ edges, ∀ pf pt : Int × Int, lookupCoords dev e.frm = some pf →
      lookupCoords dev e.«to» = some pt →
      ({ timestamp := e.timestamp, frm := e.frm, «to» := e.«to», order := e.order,
         count_row := e.count_row, lat_from := pf.1, lon_from := pf.2,
         lat_to := pt.1, lon_to := pt.2 } : ResolvedEdge) ∈ add_coords edges dev) ∧
    (∀ r ∈ add_coords edges dev,
      lookupCoords dev r.frm = some (r.lat_from, r.lon_from) ∧
      lookupCoords dev r.«to» = some (r.lat_to, r.lon_to)) := by
  constructor
  · rintro e he ⟨pf1, pf2⟩ ⟨pt1, pt2⟩ hf ht
    exact List.mem_filterMap.mpr ⟨e, he, by rw [resolveEdge, hf, ht]⟩
  · intro r hr
    obtain ⟨e, _, hres⟩ := List.mem_filterMap.mp hr
    rw [resolveEdge] at hres
    rcases hf : lookupCoords dev e.frm with _ | ⟨pf1, pf2⟩ <;> rw [hf] at hres
    · simp at hres
    · rcases ht : lookupCoords dev e.«to» with _ | ⟨pt1, pt2⟩ <;> rw [ht] at hres
      · simp at hres
      · simp only [Option.some.injEq] at hres
        subst hres
        exact ⟨hf, ht⟩

/-- C5 witness: with devices A and B in the index, the edge A→B survives
resolution carrying both devices' coordinates. -/
theorem C5_resolution_round_trip_witness :
    (⟨none, "A", "B", 0, "5", 1, 2, 3, 4⟩ : ResolvedEdge) ∈
      add_coords [⟨none, "A", "B", 0, "5"⟩] [⟨"A", 1, 2⟩, ⟨"B", 3, 4⟩] :=
  (C5_resolution_round_trip [⟨none, "A", "B", 0, "5"⟩] [⟨"A", 1, 2⟩, ⟨"B", 3, 4⟩]).1
    ⟨none, "A", "B", 0, "5"⟩ (by decide) (1, 2) (3, 4) (by decide) (by decide)

/-- C6: the rendering weight equals the constant 2 for every count when the
maximum observed count is 1; when the maximum exceeds 1 it equals
`1 + 4 * log(1 + count) / log(1 + max_count)`; it is monotone
non-decreasing in the count; and `weightForCount 1 ≤ weightForCount c` for
every count of at least 1. -/
theorem C6_weight_function (M c b1 b2 : ℕ) :
    (M = 1 → weightForCount M c = 2) ∧
    (1 < M → 1 ≤ c → weightForCount M c =
      1 + 4 * (Real.log (1 + (c : ℝ)) / Real.log (1 + (M : ℝ)))) ∧
    (b1 ≤ b2 → weightForCount M b1 ≤ weightForCount M b2) ∧
    (1 ≤ c → weightForCount M 1 ≤ weightForCount M c) := by
  refine ⟨?_, ?_, fun h => weightForCount_mono M h, fun hc => weightForCount_mono M hc⟩
  · intro h
    subst h
    simp [weightForCount]
  · intro hM hc
    simp only [weightForCount]
    rw [if_neg (by omega : ¬ M ≤ 1), if_neg (by omega : ¬ c = 0)]

/-- C6 witness: with a maximum count of 1 the weight of count 7 is 2, and
with a maximum of 5 the weight of count 1 is at most the weight of
count 3. -/
theorem C6_weight_function_witness :
    weightForCount 1 7 = 2 ∧ weightForCount 5 1 ≤ weightForCount 5 3 :=
  ⟨(C6_weight_function 1 7 0 0).1 rfl,
   (C6_weight_function 5 3 1 3).2.2.2 (by decide)⟩

/-- C7: clicking the currently selected device toggles back to the idle
state — the selection cursor becomes `none` and every line is restored to
the default style: default color, base weight, and default opacity, which
is zero for offline-incident lines and 0.5 otherwise. -/
theorem C7_toggle_deselect (s : OverlayState) (idUpper : String)
    (h : s.selectedId = some idUpper) :
    (highlightDevice idUpper s).selectedId = none ∧
    ∀ l ∈ (highlightDevice idUpper s).lines,
      l.color = "#3388ff" ∧ l.weight = l.baseWeight ∧
      l.opacity = (if l.isOfflineEdge then 0 else 1/2) := by
  rw [highlightDevice, if_pos h]
  refine ⟨rfl, ?_⟩
  intro l hl
  obtain ⟨l0, _, rfl⟩ := List.mem_map.mp hl
  simp [resetLine]

/-- C7 witness: with device A selected and one highlighted A→B line,
clicking A again clears the cursor, and the restored line carries the
default style. -/
theorem C7_toggle_deselect_witness :
    (highlightDevice "A"
      ⟨some "A", [Line.mk "A" "B" false 2 "#000000" (9/10) 2]⟩).selectedId = none ∧
    (Line.mk "A" "B" false 2 "#3388ff" (1/2) 2).color = "#3388ff" ∧
    (Line.mk "A" "B" false 2 "#3388ff" (1/2) 2).weight =
      (Line.mk "A" "B" false 2 "#3388ff" (1/2) 2).baseWeight ∧
    (Line.mk "A" "B" false 2 "#3388ff" (1/2) 2).opacity =
      (if (Line.mk "A" "B" false 2 "#3388ff" (1/2) 2).isOfflineEdge then 0 else 1/2) :=
  ⟨(C7_toggle_deselect ⟨some "A", [Line.mk "A" "B" false 2 "#000000" (9/10) 2]⟩
      "A" rfl).1,
   (C7_toggle_deselect ⟨some "A", [Line.mk "A" "B" false 2 "#000000" (9/10) 2]⟩
      "A" rfl).2 _ (by simp [highlightDevice, resetHighlight, resetLine])⟩

/-- C8 counterexample: the search matches the query against the
concatenated "ID DeviceName Location" haystack, so the query "b c" matches
a device with ID "AB" and name "CD" across the field boundary although no
single field contains it — the computed set is not exactly the set of
devices whose ID, name, or location contains the query. -/
theorem C8_search_filter_counterexample :
    filterDevices [⟨"AB", "AB", 0, 0, "", "CD", ""⟩] "b c" =
      [⟨"AB", "AB", 0, 0, "", "CD", ""⟩] ∧
    claimFieldMatch ⟨"AB", "AB", 0, 0, "", "CD", ""⟩ "b c" = false := by
  exact ⟨by decide, by decide⟩

/-- C8 amended: for every query whose trimmed text is non-empty, the search
computes exactly the devices whose lower-cased concatenation
"ID DeviceName Location" contains the trimmed, lower-cased query as a
substring (which can span field boundaries); the rendered list is the
first 50 matches, hence at most 50 entries; and the result order is the
device list's enumeration order (the matches are a sublist of it). -/
theorem C8_search_filter_amended (devices : List JsDevice) (query : String)
    (hq : strLower (strTrim query) ≠ "") :
    filterDevices devices query =
      devices.filter (fun d => strContains (deviceHaystack d) (strLower (strTrim query))) ∧
    renderResults (filterDevices devices query) =
      (devices.filter
        (fun d => strContains (deviceHaystack d) (strLower (strTrim query)))).take 50 ∧
    (renderResults (filterDevices devices query)).length ≤ 50 ∧
    List.Sublist (filterDevices devices query) devices := by
  have h1 : filterDevices devices query =
      devices.filter (fun d => strContains (deviceHaystack d) (strLower (strTrim query))) := by
    rw [filterDevices, if_neg hq]
    simpa using foldl_push_eq_filter _ devices []
  refine ⟨h1, by rw [renderResults, h1], ?_, ?_⟩
  · rw [renderResults]
    exact List.length_take_le _ _
  · rw [h1]
    exact List.filter_sublist _

/-- C8 witness: the amended statement instantiated at one device and the
query "CD". -/
theorem C8_search_filter_witness :
    filterDevices [⟨"AB", "AB", 0, 0, "", "CD", ""⟩] "CD" =
      List.filter (fun d => strContains (deviceHaystack d) (strLower (strTrim "CD")))
        [⟨"AB", "AB", 0, 0, "", "CD", ""⟩] ∧
    renderResults (filterDevices [⟨"AB", "AB", 0, 0, "", "CD", ""⟩] "CD") =
      (List.filter (fun d => strContains (deviceHaystack d) (strLower (strTrim "CD")))
        [⟨"AB", "AB", 0, 0, "", "CD", ""⟩]).take 50 ∧
    (renderResults (filterDevices [⟨"AB", "AB", 0, 0, "", "CD", ""⟩] "CD")).length ≤ 50 ∧
    List.Sublist (filterDevices [⟨"AB", "AB", 0, 0, "", "CD", ""⟩] "CD")
      [⟨"AB", "AB", 0, 0, "", "CD", ""⟩] :=
  C8_search_filter_amended [⟨"AB", "AB", 0, 0, "", "CD", ""⟩] "CD" (by decide)

/-- C9: loading the coordinate table fails with the schema error exactly
when no column case-insensitively (and whitespace-tolerantly) matches ID,
Latitude, or Longitude; the labels table fails likewise for ID,
DeviceName, Location; and either failure short-circuits the run before
anything downstream happens, surfacing the corresponding message. -/
theorem C9_schema_errors (devCols lc : List String) (labelCols : Option (List String)) :
    ((∃ e, load_devices_schema devCols = Except.error e) ↔
      ¬ ((∃ c ∈ devCols, strLower (strTrim c) = "id") ∧
         (∃ c ∈ devCols, strLower (strTrim c) = "latitude") ∧
         (∃ c ∈ devCols, strLower (strTrim c) = "longitude"))) ∧
    ((∃ e, load_labels_schema lc = Except.error e) ↔
      ¬ ((∃ c ∈ lc, strLower (strTrim c) = "id") ∧
         (∃ c ∈ lc, strLower (strTrim c) = "devicename") ∧
         (∃ c ∈ lc, strLower (strTrim c) = "location"))) ∧
    ((∃ e, load_devices_schema devCols = Except.error e) →
      runSchemaChecks devCols labelCols =
        Except.error "Devices file must include columns: ID, Latitude, Longitude") ∧
    (load_devices_schema devCols = Except.ok () →
      (∃ e, load_labels_schema lc = Except.error e) →
      runSchemaChecks devCols (some lc) =
        Except.error "Labels file must include columns: ID, DeviceName, Location") := by
  refine ⟨?_, ?_, ?_, ?_⟩
  · rw [load_devices_schema]
    split_ifs with h
    · simp only [← findCol_isSome_iff] at *
      simp [h.1, h.2.1, h.2.2]
    · simp only [← findCol_isSome_iff] at *
      simp [h]
  · rw [load_labels_schema]
    split_ifs with h
    · simp only [← findCol_isSome_iff] at *
      simp [h.1, h.2.1, h.2.2]
    · simp only [← findCol_isSome_iff] at *
      simp [h]
  · rintro ⟨e, he⟩
    have hmsg : e = "Devices file must include columns: ID, Latitude, Longitude" := by
      rw [load_devices_schema] at he
      split_ifs at he
      exact (Except.error.injEq _ _ ▸ he).symm
    rw [runSchemaChecks.eq_def, he, hmsg]
  · rintro hok ⟨e, he⟩
    have hmsg : e = "Labels file must include columns: ID, DeviceName, Location" := by
      rw [load_labels_schema] at he
      split_ifs at he
      exact (Except.error.injEq _ _ ▸ he).symm
    rw [runSchemaChecks.eq_def, hok]
    simp [he, hmsg]

/-- C9 witness: a coordinate table whose columns are Name, Latitude,
Longitude is missing ID, so the run aborts with the devices schema
message even though a well-formed labels table was supplied. -/
theorem C9_schema_errors_witness :
    runSchemaChecks ["Name", "Latitude", "Longitude"]
        (some ["ID", "DeviceName", "Location"]) =
      Except.error "Devices file must include columns: ID, Latitude, Longitude" :=
  (C9_schema_errors ["Name", "Latitude", "Longitude"] ["ID", "DeviceName", "Location"]
    (some ["ID", "DeviceName", "Location"])).2.2.1
    ⟨"Devices file must include columns: ID, Latitude, Longitude", rfl⟩

/-- C10: for every integer `min_count` the filter keeps an aggregated edge
iff its count is at least `max 1 min_count`; any `min_count` at most 1
behaves identically to 1; and applied to an aggregation result (whose
counts are all at least 1) such a `min_count` filters nothing. -/
theorem C10_min_count_clamp (m : Int) (l : List AggEdge) (res : List ResolvedEdge) :
    (∀ a, a ∈ applyMinCount m l ↔ a ∈ l ∧ max 1 m ≤ (a.count : Int)) ∧
    (m ≤ 1 → applyMinCount m l = applyMinCount 1 l) ∧
    (m ≤ 1 → applyMinCount m (aggregate res) = aggregate res) := by
  have hmax : m ≤ 1 → max 1 m = 1 := fun hm => max_eq_left hm
  refine ⟨?_, ?_, ?_⟩
  · intro a
    simp [applyMinCount, List.mem_filter]
  · intro hm
    simp [applyMinCount, hmax hm]
  · intro hm
    rw [applyMinCount, List.filter_eq_self]
    intro a ha
    simp only [aggregate, List.mem_map] at ha
    obtain ⟨k, hk, rfl⟩ := ha
    simp only [decide_eq_true_iff, hmax hm]
    obtain ⟨e, he, hek⟩ := List.mem_map.mp (List.mem_dedup.mp hk)
    have hpos : 0 < res.countP (fun e => decide (edgeKey e = k)) :=
      List.countP_pos_iff.mpr ⟨e, he, by simp [hek]⟩
    omega

/-- C10 witness: the negative minimum -5 filters nothing out of a concrete
aggregation result. -/
theorem C10_min_count_clamp_witness :
    applyMinCount (-5) (aggregate [⟨none, "A", "B", 0, "5", 1, 2, 3, 4⟩]) =
      aggregate [⟨none, "A", "B", 0, "5", 1, 2, 3, 4⟩] :=
  (C10_min_count_clamp (-5) [] [⟨none, "A", "B", 0, "5", 1, 2, 3, 4⟩]).2.2
    (by decide)
